import Mathlib

/-!
Shallow embedding of the installed-package discovery and caching subsystem of
the ScoopMeta repository (src-tauri/src/commands/installed.rs,
src-tauri/src/commands/linker.rs, src-tauri/src/state.rs).

The filesystem is modelled as explicit data: a package directory holds a list
of immediate subdirectories (version directories), each of which may contain
the two metadata files `install.json` and `manifest.json`.  A metadata file is
modelled by its modification time together with its parse result (`none` when
the file is present but does not parse).  Buckets are modelled by the set of
manifest names they contain.  Modification times are `Nat` milliseconds.

Async mutexes are modelled by explicit state passing over `AppState`; wall
clock instants are explicit `Nat` arguments.  Where an operation's observable
cost matters (per-package metadata parsing) the embedding returns, alongside
the result, the number of `load_package_details` invocations performed.
-/

namespace ScoopMeta

/-- models.rs: `MatchSource`. -/
inductive MatchSource where
  | name
  | binary
  | none
deriving DecidableEq

/-- models.rs: `ScoopPackage`. -/
structure ScoopPackage where
  name : String
  version : String
  source : String
  updated : String
  is_installed : Bool
  info : String
  match_source : MatchSource
  is_versioned_install : Bool
deriving DecidableEq

/-- models.rs: `PackageManifest` (parsed content of `manifest.json`). -/
structure PackageManifest where
  description : Option String
  version : String
deriving DecidableEq

/-- models.rs: `InstallManifest` (parsed content of `install.json`). -/
structure InstallManifest where
  bucket : Option String
deriving DecidableEq

/-- A metadata file on disk: its modification time (ms since epoch) and its
parse result (`none` when reading succeeds but JSON parsing fails). -/
structure MFile (α : Type) where
  mtime : Nat
  parse : Option α
deriving DecidableEq

/-- One immediate subdirectory of a package directory (a version directory,
or the `current` junction). -/
structure VersionDir where
  name : String
  mtime : Nat
  installJson : Option (MFile InstallManifest)
  manifestJson : Option (MFile PackageManifest)
deriving DecidableEq

/-- One package directory under `root/apps`, with its immediate
subdirectories listed in directory-iteration order. -/
structure PackageDir where
  name : String
  mtime : Nat
  subdirs : List VersionDir
deriving DecidableEq

/-- One bucket repository under `root/buckets`: its directory name and the
names of the packages for which `buckets/{b}/bucket/{name}.json` exists. -/
structure Bucket where
  name : String
  manifests : List String
deriving DecidableEq

/-- The filesystem as seen by the subsystem: whether `root/apps` exists, the
package directories under it (in directory-iteration order) and the bucket
repositories under `root/buckets`. -/
structure Fs where
  appsPresent : Bool
  apps : List PackageDir
  buckets : List Bucket
deriving DecidableEq

/-- installed.rs: `get_install_modification_time` — mtime of `install.json`,
falling back to `manifest.json`, falling back to the directory itself. -/
def getInstallModificationTime (d : VersionDir) : Nat :=
  match d.installJson with
  | some f => f.mtime
  | Option.none =>
    match d.manifestJson with
    | some f => f.mtime
    | Option.none => d.mtime

/-- installed.rs: `find_package_bucket` — first bucket (in iteration order)
whose `bucket` subdirectory contains `{package_name}.json`. -/
def find_package_bucket (fs : Fs) (packageName : String) : Option String :=
  (fs.buckets.find? (fun b => b.manifests.contains packageName)).map Bucket.name

/-- ASCII lowercase of one character (Rust `char::to_ascii_lowercase`). -/
def asciiLowerChar (c : Char) : Char :=
  if 65 ≤ c.toNat && c.toNat ≤ 90 then Char.ofNat (c.toNat + 32) else c

/-- ASCII lowercase of a string (Rust `str::to_ascii_lowercase`). -/
def asciiLower (s : String) : String :=
  String.mk (s.data.map asciiLowerChar)

/-- Rust `str::eq_ignore_ascii_case`. -/
def eqIgnoreAsciiCase (a b : String) : Bool :=
  asciiLower a == asciiLower b

/-- installed.rs: the candidate list built by `find_latest_version_dir`:
subdirectories other than (case-insensitively) `current` that contain at
least one of `install.json` / `manifest.json`, paired with the modification
stamp used for sorting, in directory-iteration order. -/
def versionCandidates (pkg : PackageDir) : List (Nat × VersionDir) :=
  (pkg.subdirs.filter (fun d =>
      !(eqIgnoreAsciiCase d.name "current")
        && (d.installJson.isSome || d.manifestJson.isSome))).map
    (fun d => (getInstallModificationTime d, d))

/-- The comparator of `find_latest_version_dir`'s
`candidates.sort_by(|a, b| b.0.cmp(&a.0))`: descending by stamp. -/
def stampDescending (a b : Nat × VersionDir) : Prop :=
  b.1 ≤ a.1

instance : DecidableRel stampDescending :=
  fun a b => Nat.decLe b.1 a.1

/-- installed.rs: `find_latest_version_dir` — stable-sort the candidates
descending by stamp and take the first. -/
def find_latest_version_dir (pkg : PackageDir) : Option VersionDir :=
  let sorted := List.insertionSort stampDescending (versionCandidates pkg)
  (sorted.map Prod.snd).head?

/-- Existence of an immediate subdirectory literally named `current`
(`package_path.join("current").is_dir()`). -/
def findCurrentDir (pkg : PackageDir) : Option VersionDir :=
  pkg.subdirs.find? (fun d => d.name == "current")

/-- installed.rs: `locate_install_dir` — prefer the `current` directory,
otherwise fall back to `find_latest_version_dir`. -/
def locate_install_dir (pkg : PackageDir) : Option VersionDir :=
  match findCurrentDir pkg with
  | some c => some c
  | Option.none => find_latest_version_dir pkg

/-- installed.rs: `get_path_modification_time` for a package directory. -/
def getPathModificationTime (pkg : PackageDir) : Nat :=
  pkg.mtime

/-- The entry `compute_apps_fingerprint` builds for one package directory:
`"{name_lowercased}:{stamp}"`, the stamp being the active-version
directory's install modification time, falling back to the package
directory's own mtime. -/
def fingerprintEntry (pkg : PackageDir) : String :=
  let modifiedStamp :=
    match locate_install_dir pkg with
    | some installDir => getInstallModificationTime installDir
    | Option.none => getPathModificationTime pkg
  asciiLower pkg.name ++ ":" ++ toString modifiedStamp

/-- installed.rs: `compute_apps_fingerprint` — build the per-directory
entries, sort them, join with `;`, and prefix with `"{count}|"`. -/
def compute_apps_fingerprint (appDirs : List PackageDir) : String :=
  let entries := appDirs.map fingerprintEntry
  let sortedEntries := List.insertionSort (fun a b => a ≤ b) entries
  toString appDirs.length ++ "|" ++ String.intercalate ";" sortedEntries

/-- installed.rs: `load_package_details`.  The source inlines the body of
`locate_install_dir` (current-directory check, then latest-version
fallback); the embedding calls `locate_install_dir`, which is that exact
logic.  `updated` is the active-version directory's mtime rendered as a
string (RFC3339 formatting is abstracted to `toString`). -/
def load_package_details (fs : Fs) (pkg : PackageDir) : Except String ScoopPackage :=
  let packageName := pkg.name
  match locate_install_dir pkg with
  | Option.none =>
    .error ("current directory not found for " ++ packageName
      ++ " and no version directories available")
  | some installRoot =>
    match installRoot.manifestJson with
    | Option.none => .error ("Failed to read manifest.json for " ++ packageName)
    | some manifestFile =>
      match manifestFile.parse with
      | Option.none => .error ("Failed to parse manifest.json for " ++ packageName)
      | some manifest =>
        match installRoot.installJson with
        | Option.none => .error ("Failed to read install.json for " ++ packageName)
        | some installFile =>
          match installFile.parse with
          | Option.none => .error ("Failed to parse install.json for " ++ packageName)
          | some installManifest =>
            let bucket :=
              ((installManifest.bucket).or
                (find_package_bucket fs packageName)).getD "main"
            let isVersionedInstall := installManifest.bucket.isNone
            let updatedTime := toString installRoot.mtime
            .ok { name := packageName
                  version := manifest.version
                  source := bucket
                  updated := updatedTime
                  is_installed := true
                  info := manifest.description.getD ""
                  match_source := MatchSource.none
                  is_versioned_install := isVersionedInstall }

/-- state.rs: `InstalledPackagesCache`. -/
structure InstalledPackagesCache where
  packages : List ScoopPackage
  fingerprint : String
deriving DecidableEq

/-- state.rs: `PackageVersionsCache`.  The `HashMap<String, Vec<String>>` is
modelled as an association list (insertion order). -/
structure PackageVersionsCache where
  fingerprint : String
  versionsMap : List (String × List String)
deriving DecidableEq

/-- state.rs: `AppState` — the two cache slots and the last forced-refresh
timestamp (ms).  The scoop path itself is fixed by `Fs`. -/
structure AppState where
  installed : Option InstalledPackagesCache
  versions : Option PackageVersionsCache
  lastRefreshTime : Nat
deriving DecidableEq

/-- `HashMap::get` on the association-list model. -/
def mapGet (m : List (String × List String)) (k : String) : Option (List String) :=
  (m.find? (fun p => p.1 == k)).map Prod.snd

/-- `HashMap::insert` on the association-list model: replace an existing
entry for the key, else append. -/
def mapInsert (m : List (String × List String)) (k : String) (v : List String) :
    List (String × List String) :=
  if (m.find? (fun p => p.1 == k)).isSome then
    m.map (fun p => if p.1 == k then (k, v) else p)
  else
    m ++ [(k, v)]

/-- state.rs: `should_debounce_refresh` at wall-clock instant `now` (ms);
`now.saturating_sub(last)` is `Nat` subtraction. -/
def should_debounce_refresh (now : Nat) (s : AppState) : Bool :=
  if s.lastRefreshTime == 0 then false
  else now - s.lastRefreshTime < 1000

/-- installed.rs: `check_cache` — the stored package list when the stored
fingerprint equals the freshly computed one. -/
def check_cache (s : AppState) (fingerprint : String) : Option (List ScoopPackage) :=
  match s.installed with
  | some cache =>
    if cache.fingerprint == fingerprint then some cache.packages else Option.none
  | Option.none => Option.none

/-- installed.rs: `scan_installed_packages_internal`.  Returns the package
list, the state after the call, and the number of `load_package_details`
invocations performed (the parallel scan calls it once per package
directory; a cache hit calls it zero times).  `ensure_apps_path` is
modelled by `fs.appsPresent`: with an unchanged filesystem,
`refresh_scoop_path_if_needed` re-resolves the same root and leaves the
cache untouched, so a missing apps directory stays missing and yields the
empty list. -/
def scan_installed_packages_internal (fs : Fs) (s : AppState) :
    List ScoopPackage × AppState × Nat :=
  if !fs.appsPresent then ([], s, 0)
  else
    let appDirs := fs.apps
    let fingerprint := compute_apps_fingerprint appDirs
    match check_cache s fingerprint with
    | some cachedPackages => (cachedPackages, s, 0)
    | Option.none =>
      let packages := appDirs.filterMap (fun d => (load_package_details fs d).toOption)
      (packages,
        { s with installed := some ⟨packages, fingerprint⟩ },
        appDirs.length)

/-- The §4.5 parallel scan output: per-package loads with failures dropped
(`fs.apps.par_iter().filter_map(load_package_details).collect()`). -/
def scanOutput (fs : Fs) : List ScoopPackage :=
  fs.apps.filterMap (fun d => (load_package_details fs d).toOption)

/-- installed.rs: `invalidate_installed_cache` — set the installed cache to
absent and also clear the versions cache. -/
def invalidate_installed_cache (s : AppState) : AppState :=
  { s with installed := Option.none, versions := Option.none }

/-- installed.rs: `refresh_installed_packages` at wall-clock instant `now`.
The early return fires only when the call is debounced AND the installed
cache is present; otherwise the refresh time is updated, both caches are
invalidated and a fresh scan runs. -/
def refresh_installed_packages (fs : Fs) (now : Nat) (s : AppState) :
    List ScoopPackage × AppState × Nat :=
  match should_debounce_refresh now s, s.installed with
  | true, some cache => (cache.packages, s, 0)
  | _, _ =>
    let s1 : AppState := { s with lastRefreshTime := now }
    let s2 := invalidate_installed_cache s1
    scan_installed_packages_internal fs s2

/-- linker.rs: `is_version_directory` — the directory contains
`manifest.json` or `install.json`. -/
def is_version_directory (d : VersionDir) : Bool :=
  d.manifestJson.isSome || d.installJson.isSome

/-- linker.rs: the version-directory listing performed by
`get_package_versions` and `get_versioned_packages`: immediate
subdirectories whose name is not literally `current` and that look like
version directories, in directory-iteration order. -/
def scanVersionDirs (pkg : PackageDir) : List String :=
  pkg.subdirs.filterMap (fun d =>
    if d.name == "current" then Option.none
    else if is_version_directory d then some d.name else Option.none)

/-- linker.rs: the cached-path lookup at the top of `get_package_versions`:
the cached entry, provided both caches are present, their fingerprints
match and the map contains the package. -/
def versionsCacheLookup (s : AppState) (packageName : String) : Option (List String) :=
  match s.versions, s.installed with
  | some cache, some installedCache =>
    if installedCache.fingerprint == cache.fingerprint then
      mapGet cache.versionsMap packageName
    else Option.none
  | _, _ => Option.none

/-- Existence lookup for `root/apps/{name}` (`package_dir.exists()`). -/
def findAppDir (fs : Fs) (packageName : String) : Option PackageDir :=
  if fs.appsPresent then fs.apps.find? (fun p => p.name == packageName)
  else Option.none

/-- linker.rs: `get_package_versions`.  Returns the version-directory list
handed to `build_versioned_package_info` (a pure function of that list and
the filesystem), the state after the call, and whether the package
directory was rescanned.  On the scan path the whole versions cache is
replaced by a fresh single-entry map — but only when the installed cache
is present. -/
def get_package_versions (fs : Fs) (s : AppState) (packageName : String) :
    Except String (List String) × AppState × Bool :=
  match versionsCacheLookup s packageName with
  | some versionDirs => (.ok versionDirs, s, false)
  | Option.none =>
    match findAppDir fs packageName with
    | Option.none => (.error ("Package " ++ packageName ++ " is not installed"), s, false)
    | some pkg =>
      let versionDirs := scanVersionDirs pkg
      let s1 :=
        match s.installed with
        | some installedCache =>
          { s with versions := some (PackageVersionsCache.mk installedCache.fingerprint [(packageName, versionDirs)]) }
        | Option.none => s
      (.ok versionDirs, s1, true)

/-- linker.rs: the body of `get_versioned_packages`' scan loop for one
package directory: if it has more than one version directory, record its
name and insert its versions into the cache — creating a fresh cache
object (with the current installed fingerprint) only when none exists, and
writing only while the installed cache is present. -/
def getVersionedPackagesStep (acc : List String × AppState) (pkg : PackageDir) :
    List String × AppState :=
  let versionDirs := scanVersionDirs pkg
  if versionDirs.length > 1 then
    let names := acc.1 ++ [pkg.name]
    let s1 :=
      match acc.2.installed with
      | some installedCache =>
        let vc :=
          match acc.2.versions with
          | Option.none => PackageVersionsCache.mk installedCache.fingerprint []
          | some cache => cache
        { acc.2 with versions := some (PackageVersionsCache.mk vc.fingerprint (mapInsert vc.versionsMap pkg.name versionDirs)) }
      | Option.none => acc.2
    (names, s1)
  else acc

/-- linker.rs: `get_versioned_packages`.  The cached path filters the map
for entries with more than one version; the scan path walks every package
directory, threading the cache updates of `getVersionedPackagesStep`, and
sorts the resulting names. -/
def get_versioned_packages (fs : Fs) (s : AppState) : List String × AppState :=
  let cachedHit : Option (List String) :=
    match s.versions, s.installed with
    | some cache, some installedCache =>
      if installedCache.fingerprint == cache.fingerprint then
        some ((cache.versionsMap.filter (fun p => p.2.length > 1)).map Prod.fst)
      else Option.none
    | _, _ => Option.none
  match cachedHit with
  | some versioned => (versioned, s)
  | Option.none =>
    let scanned :=
      if fs.appsPresent then fs.apps.foldl getVersionedPackagesStep ([], s)
      else ([], s)
    (List.insertionSort (fun a b => a ≤ b) scanned.1, scanned.2)

/-! ## Concrete fixtures (used by witness theorems) -/

/-- A fully valid version directory: parseable `install.json` naming bucket
`main` and parseable `manifest.json` at version `1.0`. -/
def vdCurrent : VersionDir :=
  VersionDir.mk "current" 30
    (some (MFile.mk 31 (some (InstallManifest.mk (some "main")))))
    (some (MFile.mk 32 (some (PackageManifest.mk (some "desc") "1.0"))))

/-- A package directory `foo` holding only a valid `current` directory. -/
def pkgFoo : PackageDir :=
  PackageDir.mk "foo" 20 [vdCurrent]

/-- A one-package filesystem whose apps directory exists. -/
def fsA : Fs :=
  Fs.mk true [pkgFoo] []

/-- The process-start state: both caches absent, no refresh recorded. -/
def stEmpty : AppState :=
  AppState.mk Option.none Option.none 0

/-- An older version directory (stamp 5), manifest only. -/
def vdOld : VersionDir :=
  VersionDir.mk "1.0" 5 Option.none
    (some (MFile.mk 5 (some (PackageManifest.mk Option.none "1.0"))))

/-- A newer version directory (stamp 9), manifest only. -/
def vdNew : VersionDir :=
  VersionDir.mk "2.0" 9 Option.none
    (some (MFile.mk 9 (some (PackageManifest.mk Option.none "2.0"))))

/-- A package directory with no `current` marker and two version
subdirectories of different modification stamps. -/
def pkgBar : PackageDir :=
  PackageDir.mk "bar" 8 [vdOld, vdNew]

/-- A package directory with no subdirectories at all. -/
def pkgEmptyDir : PackageDir :=
  PackageDir.mk "empty" 2 []

/-- A `current` directory with a parseable manifest but no `install.json`. -/
def vdNoInstall : VersionDir :=
  VersionDir.mk "current" 40 Option.none
    (some (MFile.mk 41 (some (PackageManifest.mk (some "x") "2.0"))))

/-- A package whose install record is entirely missing. -/
def pkgBad : PackageDir :=
  PackageDir.mk "bad" 50 [vdNoInstall]

/-- A filesystem holding a loadable package `foo` next to the broken
package `bad`. -/
def fsB : Fs :=
  Fs.mk true [pkgFoo, pkgBad] []

/-- A `current` directory whose `install.json` parses but has no `bucket`
field. -/
def vdNoBucket : VersionDir :=
  VersionDir.mk "current" 60
    (some (MFile.mk 61 (some (InstallManifest.mk Option.none))))
    (some (MFile.mk 62 (some (PackageManifest.mk (some "d") "3.0"))))

/-- A package installed without a recorded bucket. -/
def pkgQux : PackageDir :=
  PackageDir.mk "qux" 70 [vdNoBucket]

/-- A filesystem where package `qux` has no bucket field in its install
record, yet bucket `extras` carries a `qux.json` manifest. -/
def fsC : Fs :=
  Fs.mk true [pkgQux] [Bucket.mk "extras" ["qux"]]

/-- A filesystem containing only the two-version package `bar`. -/
def fsD : Fs :=
  Fs.mk true [pkgBar] []

/-- A state whose versions cache matches the installed fingerprint and
holds an entry for `bar`. -/
def stHit : AppState :=
  AppState.mk (some (InstalledPackagesCache.mk [] "fp1"))
    (some (PackageVersionsCache.mk "fp1" [("bar", ["1.0", "2.0"])])) 0

/-- Like `stHit`, but the installed cache has moved to a new fingerprint,
leaving the versions cache stale. -/
def stStale : AppState :=
  AppState.mk (some (InstalledPackagesCache.mk [] "fp2"))
    (some (PackageVersionsCache.mk "fp1" [("bar", ["1.0", "2.0"])])) 0

/-- A state whose versions cache matches the installed fingerprint but
holds an entry only for a different package, `other`. -/
def stOther : AppState :=
  AppState.mk (some (InstalledPackagesCache.mk [] "fp1"))
    (some (PackageVersionsCache.mk "fp1" [("other", ["1.0"])])) 0

/-- A state whose installed cache moved to fingerprint `fp2` while the
versions cache still carries `fp1` and an entry for `other` only. -/
def stOtherStale : AppState :=
  AppState.mk (some (InstalledPackagesCache.mk [] "fp2"))
    (some (PackageVersionsCache.mk "fp1" [("other", ["1.0"])])) 0

/-- A state with no installed cache but a leftover versions cache. -/
def stNoInst : AppState :=
  AppState.mk Option.none
    (some (PackageVersionsCache.mk "fp1" [("other", ["1.0"])])) 0

/-- A state with an installed cache at `fp2` and no versions cache. -/
def stInstNoVers : AppState :=
  AppState.mk (some (InstalledPackagesCache.mk [] "fp2")) Option.none 0

/-! ## Theorems -/

/-- C3: for every list of package directories and every permutation of that
list, `compute_apps_fingerprint` returns the identical string — the result
is deterministic and independent of the order in which the directories are
supplied. -/
theorem compute_apps_fingerprint_order_independent
    (l l2 : List PackageDir) (h : l.Perm l2) :
    compute_apps_fingerprint l = compute_apps_fingerprint l2 := by
  unfold compute_apps_fingerprint
  have hmap : (l.map fingerprintEntry).Perm (l2.map fingerprintEntry) :=
    h.map fingerprintEntry
  have hsort :
      List.insertionSort (fun a b => a ≤ b) (l.map fingerprintEntry)
        = List.insertionSort (fun a b => a ≤ b) (l2.map fingerprintEntry) :=
    List.eq_of_perm_of_sorted
      ((List.perm_insertionSort _ _).trans
        (hmap.trans (List.perm_insertionSort _ _).symm))
      (List.sorted_insertionSort _ _)
      (List.sorted_insertionSort _ _)
  simp only [h.length_eq, hsort]

/-- Concrete instantiation of the fingerprint order-independence theorem on
a two-directory listing and its swap. -/
theorem compute_apps_fingerprint_order_independent_witness :
    compute_apps_fingerprint
        [PackageDir.mk "Foo" 5 [], PackageDir.mk "bar" 7 []]
      = compute_apps_fingerprint
        [PackageDir.mk "bar" 7 [], PackageDir.mk "Foo" 5 []] :=
  compute_apps_fingerprint_order_independent _ _ (by decide)

/-- C1: calling the get-or-refresh scan twice in succession with no
filesystem changes between the calls returns equal package lists, and the
second call performs no per-package metadata parsing: the freshly computed
fingerprint equals the stored one, so the stored list is returned with
zero `load_package_details` invocations. -/
theorem scan_installed_cache_hit_idempotent (fs : Fs) (s : AppState) :
    (scan_installed_packages_internal fs
        (scan_installed_packages_internal fs s).2.1).1
      = (scan_installed_packages_internal fs s).1
    ∧ (scan_installed_packages_internal fs
        (scan_installed_packages_internal fs s).2.1).2.2 = 0 := by
  unfold scan_installed_packages_internal
  by_cases hA : fs.appsPresent
  · simp only [hA, Bool.not_true, Bool.false_eq_true, if_false]
    cases hC : check_cache s (compute_apps_fingerprint fs.apps) with
    | some cached => simp [hC]
    | none => simp [hC, check_cache]
  · simp [Bool.not_eq_true] at hA
    simp [hA]

/-- C2: `invalidate_installed_cache` sets the installed-packages cache to
absent and also clears the Package Versions Cache, and the next
get-or-refresh scan after invalidation recomputes the package list from
disk — one `load_package_details` invocation per package directory — even
when the cached fingerprint equals the newly computed one. -/
theorem invalidate_installed_cache_forces_rescan
    (fs : Fs) (s : AppState) (c : InstalledPackagesCache)
    (hApps : fs.appsPresent = true)
    (_hc : s.installed = some c)
    (_hfp : c.fingerprint = compute_apps_fingerprint fs.apps) :
    (invalidate_installed_cache s).installed = Option.none
    ∧ (invalidate_installed_cache s).versions = Option.none
    ∧ (scan_installed_packages_internal fs (invalidate_installed_cache s)).2.2
        = fs.apps.length
    ∧ (scan_installed_packages_internal fs (invalidate_installed_cache s)).1
        = fs.apps.filterMap (fun d => (load_package_details fs d).toOption) := by
  refine ⟨rfl, rfl, ?_, ?_⟩ <;>
    simp [scan_installed_packages_internal, invalidate_installed_cache,
      check_cache, hApps]

/-- Concrete instantiation of the invalidation theorem: a state caching the
exact fingerprint of the current filesystem still triggers a full one-load
rescan after invalidation. -/
theorem invalidate_installed_cache_forces_rescan_witness :
    (invalidate_installed_cache
        (AppState.mk
          (some (InstalledPackagesCache.mk [] (compute_apps_fingerprint fsA.apps)))
          Option.none 0)).installed = Option.none
    ∧ (invalidate_installed_cache
        (AppState.mk
          (some (InstalledPackagesCache.mk [] (compute_apps_fingerprint fsA.apps)))
          Option.none 0)).versions = Option.none
    ∧ (scan_installed_packages_internal fsA
        (invalidate_installed_cache
          (AppState.mk
            (some (InstalledPackagesCache.mk [] (compute_apps_fingerprint fsA.apps)))
            Option.none 0))).2.2 = fsA.apps.length
    ∧ (scan_installed_packages_internal fsA
        (invalidate_installed_cache
          (AppState.mk
            (some (InstalledPackagesCache.mk [] (compute_apps_fingerprint fsA.apps)))
            Option.none 0))).1
        = fsA.apps.filterMap (fun d => (load_package_details fsA d).toOption) :=
  invalidate_installed_cache_forces_rescan fsA _ _ rfl rfl rfl

/-- Helper: a scan over a state with no installed cache is a full fresh
scan — one load per package directory, the result stored with the freshly
computed fingerprint. -/
theorem scan_fresh (fs : Fs) (s : AppState)
    (hApps : fs.appsPresent = true) (hNone : s.installed = Option.none) :
    scan_installed_packages_internal fs s
      = (scanOutput fs,
         AppState.mk
           (some (InstalledPackagesCache.mk (scanOutput fs)
             (compute_apps_fingerprint fs.apps)))
           s.versions s.lastRefreshTime,
         fs.apps.length) := by
  simp [scan_installed_packages_internal, check_cache, scanOutput, hApps, hNone]

/-- Helper: a non-debounced forced refresh records the refresh time,
invalidates both caches and rescans. -/
theorem refresh_not_debounced (fs : Fs) (now : Nat) (s : AppState)
    (h : should_debounce_refresh now s = false) :
    refresh_installed_packages fs now s
      = scan_installed_packages_internal fs
          (invalidate_installed_cache { s with lastRefreshTime := now }) := by
  unfold refresh_installed_packages
  cases hI : s.installed with
  | none => rw [h]
  | some c => rw [h]

/-- Helper: a debounced forced refresh with a present installed cache
returns the cached packages, performs no loads and leaves the state
untouched. -/
theorem refresh_debounced (fs : Fs) (now : Nat) (s : AppState)
    (c : InstalledPackagesCache)
    (h : should_debounce_refresh now s = true) (hc : s.installed = some c) :
    refresh_installed_packages fs now s = (c.packages, s, 0) := by
  unfold refresh_installed_packages
  rw [h, hc]

/-- C9: a forced refresh requested within one second of the previous forced
refresh returns the current cache content with no per-package loads and an
unchanged state; two forced refreshes at least one second apart each
perform a real full rescan; and the debounce applies only to the forced
entry point — the ordinary get-or-refresh scan is insensitive to the
last-refresh timestamp. -/
theorem refresh_installed_packages_debounce
    (fs : Fs) (s : AppState) (now1 now2 : Nat)
    (hApps : fs.appsPresent = true)
    (hNoDeb : should_debounce_refresh now1 s = false)
    (hPos : now1 ≠ 0) :
    (refresh_installed_packages fs now1 s).2.2 = fs.apps.length
    ∧ (now2 - now1 < 1000 →
        refresh_installed_packages fs now2 (refresh_installed_packages fs now1 s).2.1
          = ((refresh_installed_packages fs now1 s).1,
             (refresh_installed_packages fs now1 s).2.1, 0))
    ∧ (1000 ≤ now2 - now1 →
        (refresh_installed_packages fs now2
            (refresh_installed_packages fs now1 s).2.1).2.2 = fs.apps.length)
    ∧ (∀ (t : Nat) (s2 : AppState),
        (scan_installed_packages_internal fs (AppState.mk s2.installed s2.versions t)).1
          = (scan_installed_packages_internal fs s2).1
        ∧ (scan_installed_packages_internal fs (AppState.mk s2.installed s2.versions t)).2.2
          = (scan_installed_packages_internal fs s2).2.2) := by
  have hR1 : refresh_installed_packages fs now1 s
      = (scanOutput fs,
         AppState.mk
           (some (InstalledPackagesCache.mk (scanOutput fs)
             (compute_apps_fingerprint fs.apps)))
           Option.none now1,
         fs.apps.length) := by
    rw [refresh_not_debounced fs now1 s hNoDeb,
      scan_fresh fs _ hApps rfl]
    rfl
  refine ⟨by rw [hR1], ?_, ?_, ?_⟩
  · intro h2
    have hdeb : should_debounce_refresh now2 (refresh_installed_packages fs now1 s).2.1
        = true := by
      rw [hR1]
      unfold should_debounce_refresh
      simp [hPos, h2]
    rw [refresh_debounced fs now2 _ _ hdeb (by rw [hR1])]
    rw [hR1]
  · intro h3
    have hdeb : should_debounce_refresh now2 (refresh_installed_packages fs now1 s).2.1
        = false := by
      rw [hR1]
      unfold should_debounce_refresh
      simp [Nat.not_lt.mpr h3]
    rw [refresh_not_debounced fs now2 _ hdeb,
      scan_fresh fs _ hApps rfl]
  · intro t s2
    have hEq : ∀ fp, check_cache (AppState.mk s2.installed s2.versions t) fp
        = check_cache s2 fp := fun _ => rfl
    cases hC : check_cache s2 (compute_apps_fingerprint fs.apps) with
    | some cached =>
      constructor <;> simp [scan_installed_packages_internal, hApps, hEq, hC]
    | none =>
      constructor <;> simp [scan_installed_packages_internal, hApps, hEq, hC]

/-- Concrete instantiation of the debounce theorem: a first forced refresh
at t=5000ms over `fsA` does one load; a second one 200ms later returns the
cached content with zero loads; one 1500ms later rescans fully. -/
theorem refresh_installed_packages_debounce_witness :
    (refresh_installed_packages fsA 5000 stEmpty).2.2 = fsA.apps.length
    ∧ refresh_installed_packages fsA 5200 (refresh_installed_packages fsA 5000 stEmpty).2.1
        = ((refresh_installed_packages fsA 5000 stEmpty).1,
           (refresh_installed_packages fsA 5000 stEmpty).2.1, 0)
    ∧ (refresh_installed_packages fsA 6500
          (refresh_installed_packages fsA 5000 stEmpty).2.1).2.2 = fsA.apps.length :=
  ⟨(refresh_installed_packages_debounce fsA stEmpty 5000 5200 rfl rfl (by decide)).1,
   (refresh_installed_packages_debounce fsA stEmpty 5000 5200 rfl rfl (by decide)).2.1
     (by decide),
   (refresh_installed_packages_debounce fsA stEmpty 5000 6500 rfl rfl (by decide)).2.2.1
     (by decide)⟩

/-- Helper: the head of the stable descending insertion sort is the element
with the strictly greatest stamp, when there is one. -/
theorem head_insertionSort_unique_max
    (l : List (Nat × VersionDir)) (d : Nat × VersionDir)
    (hd : d ∈ l) (hmax : ∀ e ∈ l, e ≠ d → e.1 < d.1) :
    (List.insertionSort stampDescending l).head? = some d := by
  induction l with
  | nil => cases hd
  | cons x xs ih =>
    by_cases hx : x = d
    · subst hx
      show (List.orderedInsert stampDescending x
        (List.insertionSort stampDescending xs)).head? = some x
      cases hs : List.insertionSort stampDescending xs with
      | nil => rfl
      | cons y t =>
        have hy : y ∈ xs := by
          have : y ∈ List.insertionSort stampDescending xs := by
            rw [hs]; exact List.mem_cons_self y t
          exact (List.mem_insertionSort stampDescending).mp this
        have hle : stampDescending x y := by
          by_cases hyx : y = x
          · subst hyx; exact le_refl _
          · exact le_of_lt (hmax y (List.mem_cons_of_mem x hy) hyx)
        simp [List.orderedInsert, if_pos hle]
    · have hdxs : d ∈ xs := by
        cases List.mem_cons.mp hd with
        | inl h => exact absurd h.symm hx
        | inr h => exact h
      have hmax' : ∀ e ∈ xs, e ≠ d → e.1 < d.1 := fun e he hne =>
        hmax e (List.mem_cons_of_mem x he) hne
      have hhead := ih hdxs hmax'
      show (List.orderedInsert stampDescending x
        (List.insertionSort stampDescending xs)).head? = some d
      cases hs : List.insertionSort stampDescending xs with
      | nil => rw [hs] at hhead; cases hhead
      | cons y t =>
        rw [hs] at hhead
        have hyd : y = d := by
          simpa using hhead
        subst hyd
        have hxlt : x.1 < y.1 := hmax x (List.mem_cons_self x xs) hx
        have hnle : ¬ stampDescending x y := not_le_of_lt hxlt
        simp [List.orderedInsert, if_neg hnle]

/-- C7: the Package Detail Loader resolves the active-version directory by
preferring the subdirectory named `current`; if that is absent it selects,
among the candidate version subdirectories (non-`current`, containing at
least one of the two metadata files), the one with the strictly most
recent modification stamp; and when neither `current` nor any candidate
exists the loader fails with the no-active-version error. -/
theorem active_version_resolution (fs : Fs) (pkg : PackageDir)
    (c : Option VersionDir) (hcur : findCurrentDir pkg = c) :
    (∀ cd, c = some cd → locate_install_dir pkg = some cd)
    ∧ (c = Option.none →
        ∀ stamp d, (stamp, d) ∈ versionCandidates pkg →
          (∀ e ∈ versionCandidates pkg, e ≠ (stamp, d) → e.1 < stamp) →
          locate_install_dir pkg = some d)
    ∧ (c = Option.none → versionCandidates pkg = [] →
        load_package_details fs pkg
          = .error ("current directory not found for " ++ pkg.name
              ++ " and no version directories available")) := by
  refine ⟨?_, ?_, ?_⟩
  · intro cd hcd
    subst hcd
    unfold locate_install_dir
    rw [hcur]
  · intro hnone stamp d hmem hmax
    subst hnone
    unfold locate_install_dir
    rw [hcur]
    unfold find_latest_version_dir
    have hhead := head_insertionSort_unique_max (versionCandidates pkg) (stamp, d) hmem hmax
    rw [List.head?_map, hhead]
    rfl
  · intro hnone hcands
    subst hnone
    unfold load_package_details locate_install_dir
    rw [hcur]
    unfold find_latest_version_dir
    rw [hcands]
    rfl

/-- Concrete instantiation of active-version resolution: `current` is
preferred when present; without it the later-modified of two version
directories wins; a package directory with no version directories fails. -/
theorem active_version_resolution_witness :
    locate_install_dir pkgFoo = some vdCurrent
    ∧ locate_install_dir pkgBar = some vdNew
    ∧ load_package_details fsA pkgEmptyDir
        = .error ("current directory not found for " ++ pkgEmptyDir.name
            ++ " and no version directories available") :=
  ⟨(active_version_resolution fsA pkgFoo (some vdCurrent) rfl).1 vdCurrent rfl,
   (active_version_resolution fsA pkgBar Option.none rfl).2.1 rfl 9 vdNew
     (by decide) (by decide),
   (active_version_resolution fsA pkgEmptyDir Option.none rfl).2.2 rfl rfl⟩

/-- Helper: a successfully loaded record carries its package directory's
name. -/
theorem load_package_details_name (fs : Fs) (pkg : PackageDir) (r : ScoopPackage)
    (h : load_package_details fs pkg = .ok r) : r.name = pkg.name := by
  unfold load_package_details at h
  cases hL : locate_install_dir pkg with
  | none => rw [hL] at h; cases h
  | some root =>
    rw [hL] at h
    dsimp only at h
    cases hM : root.manifestJson with
    | none => rw [hM] at h; cases h
    | some mf =>
      rw [hM] at h
      dsimp only at h
      cases hMp : mf.parse with
      | none => rw [hMp] at h; cases h
      | some man =>
        rw [hMp] at h
        dsimp only at h
        cases hI : root.installJson with
        | none => rw [hI] at h; cases h
        | some inf =>
          rw [hI] at h
          dsimp only at h
          cases hIp : inf.parse with
          | none => rw [hIp] at h; cases h
          | some im =>
            rw [hIp] at h
            dsimp only at h
            cases h
            rfl

/-- C8: a package directory whose active-version directory has a readable,
parseable manifest but no install-record file fails to load with the
read-install.json error; a fresh scan therefore skips it — its name is
absent from the scan output — while every sibling package that loads
successfully appears in the output. -/
theorem missing_install_record_skips
    (fs : Fs) (s : AppState) (pkg : PackageDir)
    (root : VersionDir) (mf : MFile PackageManifest) (man : PackageManifest)
    (hApps : fs.appsPresent = true)
    (hNoCache : s.installed = Option.none)
    (hmem : pkg ∈ fs.apps)
    (hNodup : (fs.apps.map PackageDir.name).Nodup)
    (hroot : locate_install_dir pkg = some root)
    (hman : root.manifestJson = some mf)
    (hmanp : mf.parse = some man)
    (hinst : root.installJson = Option.none) :
    load_package_details fs pkg
        = .error ("Failed to read install.json for " ++ pkg.name)
    ∧ (scan_installed_packages_internal fs s).1 = scanOutput fs
    ∧ (∀ r ∈ scanOutput fs, r.name ≠ pkg.name)
    ∧ (∀ q ∈ fs.apps, ∀ r, load_package_details fs q = .ok r → r ∈ scanOutput fs) := by
  have hErr : load_package_details fs pkg
      = .error ("Failed to read install.json for " ++ pkg.name) := by
    unfold load_package_details
    rw [hroot]
    dsimp only
    rw [hman]
    dsimp only
    rw [hmanp]
    dsimp only
    rw [hinst]
  refine ⟨hErr, ?_, ?_, ?_⟩
  · rw [scan_fresh fs s hApps hNoCache]
  · intro r hr hname
    rcases List.mem_filterMap.mp hr with ⟨q, hq, hload⟩
    cases hOk : load_package_details fs q with
    | error e => rw [hOk] at hload; cases hload
    | ok r2 =>
      rw [hOk] at hload
      cases hload
      have hqname : q.name = pkg.name := by
        rw [← load_package_details_name fs q r hOk, hname]
      have hqp : q = pkg := List.inj_on_of_nodup_map hNodup hq hmem hqname
      rw [hqp, hErr] at hOk
      cases hOk
  · intro q hq r hload
    exact List.mem_filterMap.mpr ⟨q, hq, by rw [hload]; rfl⟩

/-- Concrete instantiation of the missing-install-record theorem: over
`fsB`, package `bad` fails to load, the fresh scan output is the parallel
filter-map, and the sibling `foo` record still appears in it. -/
theorem missing_install_record_skips_witness :
    load_package_details fsB pkgBad
        = .error ("Failed to read install.json for " ++ pkgBad.name)
    ∧ (scan_installed_packages_internal fsB stEmpty).1 = scanOutput fsB
    ∧ ScoopPackage.mk "foo" "1.0" "main" (toString (30 : Nat)) true "desc"
        MatchSource.none false ∈ scanOutput fsB :=
  ⟨(missing_install_record_skips fsB stEmpty pkgBad vdNoInstall _ _
      rfl rfl (by decide) (by decide) rfl rfl rfl rfl).1,
   (missing_install_record_skips fsB stEmpty pkgBad vdNoInstall _ _
      rfl rfl (by decide) (by decide) rfl rfl rfl rfl).2.1,
   (missing_install_record_skips fsB stEmpty pkgBad vdNoInstall _ _
      rfl rfl (by decide) (by decide) rfl rfl rfl rfl).2.2.2
     pkgFoo (by decide) _ rfl⟩

/-- C4: evaluation of `load_package_details` at an install record whose
bucket field is absent but whose manifest is found by the bucket fallback.
The fallback bucket `extras` does become the record's source, yet
`is_versioned_install` is still set to `true` — the flag is computed from
`install_manifest.bucket.is_none()` alone, so it is NOT true exactly when
the install has no traceable bucket, and the no-bucket sentinel is `main`
rather than a distinguished value. -/
theorem versioned_install_flag_divergence :
    find_package_bucket fsC pkgQux.name = some "extras"
    ∧ load_package_details fsC pkgQux
        = .ok (ScoopPackage.mk "qux" "3.0" "extras" (toString (60 : Nat)) true "d"
            MatchSource.none true) :=
  ⟨rfl, rfl⟩

/-- C6: `get_package_versions` returns a cached entry only when the
versions cache's stored fingerprint equals the current installed cache's
fingerprint (both caches present, entry in the map); whenever the
installed fingerprint differs from the stored one, the stale entry is
ignored and the package's directory is rescanned. -/
theorem get_package_versions_fingerprint_coupling
    (fs : Fs) (s : AppState) (packageName : String) :
    (∀ dirs, versionsCacheLookup s packageName = some dirs →
      (∃ vc ic, s.versions = some vc ∧ s.installed = some ic
        ∧ ic.fingerprint = vc.fingerprint
        ∧ mapGet vc.versionsMap packageName = some dirs)
      ∧ get_package_versions fs s packageName = (.ok dirs, s, false))
    ∧ (∀ vc ic, s.versions = some vc → s.installed = some ic →
        ic.fingerprint ≠ vc.fingerprint →
        ∀ pkg, findAppDir fs packageName = some pkg →
          (get_package_versions fs s packageName).2.2 = true
          ∧ (get_package_versions fs s packageName).1
              = .ok (scanVersionDirs pkg)) := by
  constructor
  · intro dirs hlook
    have hl := hlook
    refine ⟨?_, ?_⟩
    · unfold versionsCacheLookup at hl
      cases hv : s.versions with
      | none => rw [hv] at hl; cases hl
      | some vc =>
        cases hi : s.installed with
        | none => rw [hv, hi] at hl; cases hl
        | some ic =>
          rw [hv, hi] at hl
          dsimp only at hl
          by_cases hfp : ic.fingerprint == vc.fingerprint
          · rw [if_pos hfp] at hl
            exact ⟨vc, ic, rfl, rfl, eq_of_beq hfp, hl⟩
          · rw [if_neg hfp] at hl
            cases hl
    · unfold get_package_versions
      rw [hlook]
  · intro vc ic hv hi hne pkg hpkg
    have hlook : versionsCacheLookup s packageName = Option.none := by
      unfold versionsCacheLookup
      rw [hv, hi]
      dsimp only
      rw [if_neg (fun hb => hne (eq_of_beq hb))]
    unfold get_package_versions
    rw [hlook]
    dsimp only
    rw [hpkg]
    exact ⟨rfl, rfl⟩

/-- Concrete instantiation of the fingerprint-coupling theorem: a matching
fingerprint returns the cached entry without scanning; after the installed
fingerprint moves to `fp2`, the same query rescans `bar`'s directory. -/
theorem get_package_versions_fingerprint_coupling_witness :
    get_package_versions fsD stHit "bar" = (.ok ["1.0", "2.0"], stHit, false)
    ∧ (get_package_versions fsD stStale "bar").2.2 = true
    ∧ (get_package_versions fsD stStale "bar").1 = .ok (scanVersionDirs pkgBar) :=
  ⟨((get_package_versions_fingerprint_coupling fsD stHit "bar").1
      ["1.0", "2.0"] rfl).2,
   ((get_package_versions_fingerprint_coupling fsD stStale "bar").2
      (PackageVersionsCache.mk "fp1" [("bar", ["1.0", "2.0"])])
      (InstalledPackagesCache.mk [] "fp2") rfl rfl (by decide) pkgBar rfl).1,
   ((get_package_versions_fingerprint_coupling fsD stStale "bar").2
      (PackageVersionsCache.mk "fp1" [("bar", ["1.0", "2.0"])])
      (InstalledPackagesCache.mk [] "fp2") rfl rfl (by decide) pkgBar rfl).2⟩

/-- C5 counterexample: with the installed-cache fingerprint unchanged
(`fp1` on both caches), a `get_package_versions` miss for `bar` does NOT
update just that one entry — it replaces the whole cache object with a
single-entry map, dropping the previously cached `other` entry. -/
theorem get_package_versions_drops_sibling_entries :
    stOther.installed = some (InstalledPackagesCache.mk [] "fp1")
    ∧ stOther.versions = some (PackageVersionsCache.mk "fp1" [("other", ["1.0"])])
    ∧ (get_package_versions fsD stOther "bar").2.1.versions
        = some (PackageVersionsCache.mk "fp1" [("bar", ["1.0", "2.0"])]) :=
  ⟨rfl, rfl, rfl⟩

/-- C5 amended: on a versions-cache miss with the installed cache present,
the store step of `get_package_versions` replaces the entire versions
cache with a single-entry map for the queried package under the current
installed fingerprint — dropping every other package's entry — whether or
not the fingerprint changed. -/
theorem get_package_versions_store_replaces_cache
    (fs : Fs) (s : AppState) (packageName : String) (pkg : PackageDir)
    (ic : InstalledPackagesCache)
    (hmiss : versionsCacheLookup s packageName = Option.none)
    (hic : s.installed = some ic)
    (hpkg : findAppDir fs packageName = some pkg) :
    get_package_versions fs s packageName
      = (.ok (scanVersionDirs pkg),
         AppState.mk s.installed (some (PackageVersionsCache.mk ic.fingerprint [(packageName, scanVersionDirs pkg)])) s.lastRefreshTime,
         true) := by
  unfold get_package_versions
  rw [hmiss]
  dsimp only
  rw [hpkg]
  dsimp only
  rw [hic]

/-- Concrete instantiation of the amended C5 theorem at the `stOther`
state. -/
theorem get_package_versions_store_replaces_cache_witness :
    get_package_versions fsD stOther "bar"
      = (.ok (scanVersionDirs pkgBar),
         AppState.mk stOther.installed (some (PackageVersionsCache.mk "fp1" [("bar", scanVersionDirs pkgBar)])) stOther.lastRefreshTime,
         true) :=
  get_package_versions_store_replaces_cache fsD stOther "bar" pkgBar
    (InstalledPackagesCache.mk [] "fp1") rfl rfl rfl

/-- Helper: one scan-loop step of `get_versioned_packages` never touches
the installed cache. -/
theorem getVersionedPackagesStep_installed
    (acc : List String × AppState) (pkg : PackageDir) :
    (getVersionedPackagesStep acc pkg).2.installed = acc.2.installed := by
  unfold getVersionedPackagesStep
  dsimp only
  by_cases hlen : (scanVersionDirs pkg).length > 1
  · rw [if_pos hlen]
    dsimp only
    cases hi : acc.2.installed with
    | none => exact hi
    | some ic => rfl
  · rw [if_neg hlen]

/-- Helper: with no installed cache, the `get_versioned_packages` scan loop
leaves the state untouched. -/
theorem foldl_step_state_of_installed_none (l : List PackageDir) :
    ∀ acc : List String × AppState, acc.2.installed = Option.none →
      (l.foldl getVersionedPackagesStep acc).2 = acc.2 := by
  induction l with
  | nil => intro acc _; rfl
  | cons pkg rest ih =>
    intro acc h
    have hstep : (getVersionedPackagesStep acc pkg).2 = acc.2 := by
      unfold getVersionedPackagesStep
      dsimp only
      by_cases hlen : (scanVersionDirs pkg).length > 1
      · rw [if_pos hlen]
        dsimp only
        rw [h]
      · rw [if_neg hlen]
    rw [List.foldl_cons]
    calc (rest.foldl getVersionedPackagesStep (getVersionedPackagesStep acc pkg)).2
        = (getVersionedPackagesStep acc pkg).2 := ih _ (by rw [hstep]; exact h)
      _ = acc.2 := hstep

/-- Helper: the scan loop of `get_versioned_packages` preserves the
fingerprint of an already-present versions cache — insertions reuse the
existing cache object. -/
theorem foldl_step_versions_fingerprint (l : List PackageDir) :
    ∀ (acc : List String × AppState) (F : String),
      (acc.2.versions).map PackageVersionsCache.fingerprint = some F →
      ((l.foldl getVersionedPackagesStep acc).2.versions).map
          PackageVersionsCache.fingerprint = some F := by
  induction l with
  | nil => intro acc F h; exact h
  | cons pkg rest ih =>
    intro acc F h
    rw [List.foldl_cons]
    apply ih
    unfold getVersionedPackagesStep
    dsimp only
    by_cases hlen : (scanVersionDirs pkg).length > 1
    · rw [if_pos hlen]
      dsimp only
      cases hi : acc.2.installed with
      | none => exact h
      | some ic =>
        cases hv : acc.2.versions with
        | none => rw [hv] at h; cases h
        | some vc =>
          rw [hv] at h
          dsimp only
          simpa using h
    · rw [if_neg hlen]
      exact h

/-- Helper: starting from a state with an installed cache and no versions
cache, the scan loop either never writes (versions stays absent) or
creates the cache with the then-current installed fingerprint. -/
theorem foldl_step_versions_none (l : List PackageDir) :
    ∀ (acc : List String × AppState) (ic : InstalledPackagesCache),
      acc.2.installed = some ic →
      (acc.2.versions = Option.none
        ∨ (acc.2.versions).map PackageVersionsCache.fingerprint = some ic.fingerprint) →
      ((l.foldl getVersionedPackagesStep acc).2.versions = Option.none
        ∨ ((l.foldl getVersionedPackagesStep acc).2.versions).map
            PackageVersionsCache.fingerprint = some ic.fingerprint) := by
  induction l with
  | nil => intro acc ic _ h; exact h
  | cons pkg rest ih =>
    intro acc ic hic h
    rw [List.foldl_cons]
    apply ih _ ic
    · rw [getVersionedPackagesStep_installed]
      exact hic
    · unfold getVersionedPackagesStep
      dsimp only
      by_cases hlen : (scanVersionDirs pkg).length > 1
      · rw [if_pos hlen]
        dsimp only
        rw [hic]
        dsimp only
        cases hv : acc.2.versions with
        | none => right; rfl
        | some vc =>
          cases h with
          | inl hnone => rw [hv] at hnone; cases hnone
          | inr hfp =>
            rw [hv] at hfp
            right
            simpa using hfp
      · rw [if_neg hlen]
        exact h

/-- C10 counterexample: `get_versioned_packages` over a stale versions
cache (stored fingerprint `fp1`, installed cache now at `fp2`) writes to
the versions cache — it gains the entry for `bar` — yet the written cache
keeps the stale fingerprint `fp1` instead of copying the then-current
installed fingerprint `fp2`. -/
theorem get_versioned_packages_keeps_stale_fingerprint :
    stOtherStale.installed = some (InstalledPackagesCache.mk [] "fp2")
    ∧ (get_versioned_packages fsD stOtherStale).2.versions
        = some (PackageVersionsCache.mk "fp1" [("other", ["1.0"]), ("bar", ["1.0", "2.0"])])
    ∧ (get_versioned_packages fsD stOtherStale).2.versions ≠ stOtherStale.versions
    ∧ ((get_versioned_packages fsD stOtherStale).2.versions).map
          PackageVersionsCache.fingerprint
        ≠ (stOtherStale.installed).map InstalledPackagesCache.fingerprint :=
  ⟨rfl, rfl, by decide, by decide⟩

/-- C10 amended: the versions cache is written only while the installed
cache is present — with it absent, both version queries still compute and
return their lists but leave the state untouched.  `get_package_versions`'
store step always copies the then-current installed fingerprint (it
replaces the whole cache object); `get_versioned_packages` copies it only
when creating a fresh cache object and otherwise inserts entries into the
existing object, leaving its (possibly stale) fingerprint unchanged. -/
theorem versions_cache_write_discipline
    (fs : Fs) (s : AppState) (packageName : String) :
    (s.installed = Option.none →
      (get_package_versions fs s packageName).2.1 = s
      ∧ (get_versioned_packages fs s).2 = s
      ∧ (∀ pkg, findAppDir fs packageName = some pkg →
          (get_package_versions fs s packageName).1 = .ok (scanVersionDirs pkg)))
    ∧ (∀ ic, s.installed = some ic →
        versionsCacheLookup s packageName = Option.none →
        ∀ pkg, findAppDir fs packageName = some pkg →
          (get_package_versions fs s packageName).2.1.versions
            = some (PackageVersionsCache.mk ic.fingerprint [(packageName, scanVersionDirs pkg)]))
    ∧ (∀ vc, s.versions = some vc →
        ((get_versioned_packages fs s).2.versions).map PackageVersionsCache.fingerprint
          = some vc.fingerprint)
    ∧ (∀ ic, s.installed = some ic → s.versions = Option.none →
        (get_versioned_packages fs s).2.versions = Option.none
        ∨ ((get_versioned_packages fs s).2.versions).map PackageVersionsCache.fingerprint
            = some ic.fingerprint) := by
  refine ⟨?_, ?_, ?_, ?_⟩
  · intro hnone
    have hlook : versionsCacheLookup s packageName = Option.none := by
      unfold versionsCacheLookup
      rw [hnone]
      cases hv : s.versions with
      | none => rfl
      | some vc => rfl
    refine ⟨?_, ?_, ?_⟩
    · unfold get_package_versions
      rw [hlook]
      dsimp only
      cases hp : findAppDir fs packageName with
      | none => rfl
      | some pkg =>
        dsimp only
        rw [hnone]
    · unfold get_versioned_packages
      dsimp only
      rw [hnone]
      cases hv : s.versions with
      | none =>
        dsimp only
        cases hA : fs.appsPresent with
        | false => simp
        | true =>
          simp only [if_pos rfl]
          exact foldl_step_state_of_installed_none fs.apps ([], s) hnone
      | some vc =>
        dsimp only
        cases hA : fs.appsPresent with
        | false => simp
        | true =>
          simp only [if_pos rfl]
          exact foldl_step_state_of_installed_none fs.apps ([], s) hnone
    · intro pkg hpkg
      unfold get_package_versions
      rw [hlook]
      dsimp only
      rw [hpkg]
  · intro ic hic hlook pkg hpkg
    unfold get_package_versions
    rw [hlook]
    dsimp only
    rw [hpkg]
    dsimp only
    rw [hic]
  · intro vc hv
    unfold get_versioned_packages
    dsimp only
    rw [hv]
    cases hi : s.installed with
    | none =>
      dsimp only
      cases hA : fs.appsPresent with
      | false =>
        rw [if_neg (by simp)]
        dsimp only
        simp [hv]
      | true =>
        rw [if_pos rfl]
        apply foldl_step_versions_fingerprint
        dsimp only
        simp [hv]
    | some ic =>
      dsimp only
      by_cases hfp : ic.fingerprint == vc.fingerprint
      · rw [if_pos hfp]
        dsimp only
        simp [hv]
      · rw [if_neg hfp]
        dsimp only
        cases hA : fs.appsPresent with
        | false =>
          rw [if_neg (by simp)]
          dsimp only
          simp [hv]
        | true =>
          rw [if_pos rfl]
          apply foldl_step_versions_fingerprint
          dsimp only
          simp [hv]
  · intro ic hic hvnone
    unfold get_versioned_packages
    dsimp only
    rw [hvnone]
    dsimp only
    cases hA : fs.appsPresent with
    | false =>
      rw [if_neg (by simp)]
      left
      exact hvnone
    | true =>
      rw [if_pos rfl]
      exact foldl_step_versions_none fs.apps ([], s) ic hic (Or.inl hvnone)

/-- Concrete instantiation of the write-discipline theorem across the four
regimes: installed cache absent (no write, lists still computed), a
`get_package_versions` store under the current fingerprint, and
`get_versioned_packages` preserving a pre-existing fingerprint or creating
a fresh cache under the installed one. -/
theorem versions_cache_write_discipline_witness :
    (get_package_versions fsD stNoInst "bar").2.1 = stNoInst
    ∧ (get_versioned_packages fsD stNoInst).2 = stNoInst
    ∧ (get_package_versions fsD stNoInst "bar").1 = .ok (scanVersionDirs pkgBar)
    ∧ (get_package_versions fsD stOther "bar").2.1.versions
        = some (PackageVersionsCache.mk "fp1" [("bar", scanVersionDirs pkgBar)])
    ∧ ((get_versioned_packages fsD stOtherStale).2.versions).map
          PackageVersionsCache.fingerprint = some "fp1"
    ∧ ((get_versioned_packages fsD stInstNoVers).2.versions = Option.none
        ∨ ((get_versioned_packages fsD stInstNoVers).2.versions).map
            PackageVersionsCache.fingerprint = some "fp2") :=
  ⟨((versions_cache_write_discipline fsD stNoInst "bar").1 rfl).1,
   ((versions_cache_write_discipline fsD stNoInst "bar").1 rfl).2.1,
   ((versions_cache_write_discipline fsD stNoInst "bar").1 rfl).2.2 pkgBar rfl,
   (versions_cache_write_discipline fsD stOther "bar").2.1
     (InstalledPackagesCache.mk [] "fp1") rfl rfl pkgBar rfl,
   (versions_cache_write_discipline fsD stOtherStale "bar").2.2.1
     (PackageVersionsCache.mk "fp1" [("other", ["1.0"])]) rfl,
   (versions_cache_write_discipline fsD stInstNoVers "bar").2.2.2
     (InstalledPackagesCache.mk [] "fp2") rfl rfl⟩

end ScoopMeta
